import Mathlib

/-!
Shallow embedding of the JSON-RPC framing and session layer of
src/lib/jsonrpc.c, together with theorems settling the specified
properties of its message schema, endpoint, blocking helpers and
reconnecting session.

The JSON value type, deep equality and cloning are external collaborators
of the C code (the json.h interface); they are modelled here by an
inductive value type with structural equality.  Values are immutable in
the model, so json_clone is the identity and is not written out.
-/

/-- Model of the external struct json tagged union: a JSON value.
Objects are member lists in parser order; the shash operations below give
them the map semantics the C code relies on. -/
inductive Json where
  | null
  | bool (b : Bool)
  | int (n : Int)
  | str (s : String)
  | arr (elems : List Json)
  | obj (members : List (String × Json))

mutual

def Json.decEq : (a b : Json) → Decidable (a = b)
  | .null, .null => isTrue rfl
  | .bool x, .bool y =>
      if h : x = y then isTrue (by rw [h]) else isFalse (by intro hh; cases hh; exact h rfl)
  | .int x, .int y =>
      if h : x = y then isTrue (by rw [h]) else isFalse (by intro hh; cases hh; exact h rfl)
  | .str x, .str y =>
      if h : x = y then isTrue (by rw [h]) else isFalse (by intro hh; cases hh; exact h rfl)
  | .arr xs, .arr ys =>
      match Json.decEqList xs ys with
      | isTrue h => isTrue (by rw [h])
      | isFalse h => isFalse (by intro hh; cases hh; exact h rfl)
  | .obj xs, .obj ys =>
      match Json.decEqMembers xs ys with
      | isTrue h => isTrue (by rw [h])
      | isFalse h => isFalse (by intro hh; cases hh; exact h rfl)
  | .null, .bool _ => isFalse (by intro h; cases h)
  | .null, .int _ => isFalse (by intro h; cases h)
  | .null, .str _ => isFalse (by intro h; cases h)
  | .null, .arr _ => isFalse (by intro h; cases h)
  | .null, .obj _ => isFalse (by intro h; cases h)
  | .bool _, .null => isFalse (by intro h; cases h)
  | .bool _, .int _ => isFalse (by intro h; cases h)
  | .bool _, .str _ => isFalse (by intro h; cases h)
  | .bool _, .arr _ => isFalse (by intro h; cases h)
  | .bool _, .obj _ => isFalse (by intro h; cases h)
  | .int _, .null => isFalse (by intro h; cases h)
  | .int _, .bool _ => isFalse (by intro h; cases h)
  | .int _, .str _ => isFalse (by intro h; cases h)
  | .int _, .arr _ => isFalse (by intro h; cases h)
  | .int _, .obj _ => isFalse (by intro h; cases h)
  | .str _, .null => isFalse (by intro h; cases h)
  | .str _, .bool _ => isFalse (by intro h; cases h)
  | .str _, .int _ => isFalse (by intro h; cases h)
  | .str _, .arr _ => isFalse (by intro h; cases h)
  | .str _, .obj _ => isFalse (by intro h; cases h)
  | .arr _, .null => isFalse (by intro h; cases h)
  | .arr _, .bool _ => isFalse (by intro h; cases h)
  | .arr _, .int _ => isFalse (by intro h; cases h)
  | .arr _, .str _ => isFalse (by intro h; cases h)
  | .arr _, .obj _ => isFalse (by intro h; cases h)
  | .obj _, .null => isFalse (by intro h; cases h)
  | .obj _, .bool _ => isFalse (by intro h; cases h)
  | .obj _, .int _ => isFalse (by intro h; cases h)
  | .obj _, .str _ => isFalse (by intro h; cases h)
  | .obj _, .arr _ => isFalse (by intro h; cases h)
termination_by structural a => a

def Json.decEqList : (a b : List Json) → Decidable (a = b)
  | [], [] => isTrue rfl
  | [], _ :: _ => isFalse (by intro h; cases h)
  | _ :: _, [] => isFalse (by intro h; cases h)
  | x :: xs, y :: ys =>
      match Json.decEq x y, Json.decEqList xs ys with
      | isTrue h1, isTrue h2 => isTrue (by rw [h1, h2])
      | isFalse h1, _ => isFalse (by intro hh; cases hh; exact h1 rfl)
      | isTrue _, isFalse h2 => isFalse (by intro hh; cases hh; exact h2 rfl)
termination_by structural a => a

def Json.decEqMembers : (a b : List (String × Json)) → Decidable (a = b)
  | [], [] => isTrue rfl
  | [], _ :: _ => isFalse (by intro h; cases h)
  | _ :: _, [] => isFalse (by intro h; cases h)
  | (k1, v1) :: xs, (k2, v2) :: ys =>
      match String.decEq k1 k2, Json.decEq v1 v2, Json.decEqMembers xs ys with
      | isTrue h0, isTrue h1, isTrue h2 => isTrue (by rw [h0, h1, h2])
      | isFalse h0, _, _ => isFalse (by intro hh; cases hh; exact h0 rfl)
      | isTrue _, isFalse h1, _ => isFalse (by intro hh; cases hh; exact h1 rfl)
      | isTrue _, isTrue _, isFalse h2 => isFalse (by intro hh; cases hh; exact h2 rfl)
termination_by structural a => a

end

instance : DecidableEq Json := Json.decEq

/-- Model of json_equal from the json.h interface: deep equality of JSON
values.  Objects are compared as ordered member lists, matching the
canonical member order produced by this embedding. -/
def json_equal (a b : Json) : Bool := a = b

/-- Discriminates JSON arrays, mirroring the C check
json->type == JSON_ARRAY. -/
def Json.isArray : Json → Bool
  | .arr _ => true
  | _ => false

/-- Model of enum jsonrpc_msg_type. -/
inductive JsonrpcMsgType where
  | request
  | notify
  | reply
  | error
deriving DecidableEq, Repr

/-- Model of struct jsonrpc_msg.  The C struct holds nullable pointers for
method, params, result, error and id; nullability is modelled by Option. -/
structure JsonrpcMsg where
  type : JsonrpcMsgType
  method : Option String
  params : Option Json
  result : Option Json
  error : Option Json
  id : Option Json
deriving DecidableEq

/-- Model of jsonrpc_create: fills in every field of a fresh message.
The C function duplicates the method string and takes ownership of the
JSON arguments; values are immutable here. -/
def jsonrpc_create (type : JsonrpcMsgType) (method : Option String)
    (params result error id : Option Json) : JsonrpcMsg :=
  ⟨type, method, params, result, error, id⟩

/-- Model of jsonrpc_create_id: the process-wide id counter is passed in
explicitly; the C counter is an unsigned int, so the minted value wraps
modulo two to the thirty-second. -/
def jsonrpc_create_id (counter : Nat) : Json × Nat :=
  (Json.int (Int.ofNat (counter % 2 ^ 32)), counter + 1)

/-- Model of jsonrpc_create_request.  The C function also hands a clone of
the minted id back through idp; the id is the first field of the minted
pair, so the clone is not materialised separately. -/
def jsonrpc_create_request (method : String) (params : Json) (counter : Nat) :
    JsonrpcMsg × Nat :=
  let minted := jsonrpc_create_id counter
  (jsonrpc_create JsonrpcMsgType.request (some method) (some params) none none
    (some minted.1), minted.2)

/-- Model of jsonrpc_create_notify. -/
def jsonrpc_create_notify (method : String) (params : Json) : JsonrpcMsg :=
  jsonrpc_create JsonrpcMsgType.notify (some method) (some params) none none none

/-- Model of jsonrpc_create_reply: the caller supplies the result and the
id of the request being answered (cloned by the C code). -/
def jsonrpc_create_reply (result : Option Json) (id : Json) : JsonrpcMsg :=
  jsonrpc_create JsonrpcMsgType.reply none none result none (some id)

/-- Model of jsonrpc_create_error, exactly as written in the source: the
type field it stores is JSONRPC_REPLY, not JSONRPC_ERROR. -/
def jsonrpc_create_error (error : Json) (id : Json) : JsonrpcMsg :=
  jsonrpc_create JsonrpcMsgType.reply none none none (some error) (some id)

/-- Model of jsonrpc_msg_type_to_string. -/
def jsonrpc_msg_type_to_string : JsonrpcMsgType → String
  | .request => "request"
  | .notify => "notification"
  | .reply => "reply"
  | .error => "error"

/-- Required-field pattern of jsonrpc_msg_is_valid: one flag per field in
the order method, params, result, error, id, matching the hexadecimal
bit patterns 0x11001, 0x11000, 0x00101 and 0x00011 of the source. -/
structure JsonrpcFieldPattern where
  method : Bool
  params : Bool
  result : Bool
  error : Bool
  id : Bool

def jsonrpcMsgPattern : JsonrpcMsgType → JsonrpcFieldPattern
  | .request => ⟨true, true, false, false, true⟩
  | .notify => ⟨true, true, false, false, false⟩
  | .reply => ⟨false, false, true, false, true⟩
  | .error => ⟨false, false, false, true, true⟩

/-- Error string built by the xasprintf calls of jsonrpc_msg_is_valid. -/
def jsonrpcValidErr (typeName field : String) (need : Bool) : String :=
  typeName ++ " must" ++ (if need then "" else " not") ++ " have \"" ++ field ++ "\""

/-- Mirror of the C guard m->params && m->params->type != JSON_ARRAY. -/
def jsonrpcParamsNotArray : Option Json → Bool
  | some p => !(Json.isArray p)
  | none => false

/-- Model of jsonrpc_msg_is_valid: none means the message is valid,
some reason mirrors the allocated error string. -/
def jsonrpc_msg_is_valid (m : JsonrpcMsg) : Option String :=
  if jsonrpcParamsNotArray m.params then some "\"params\" must be JSON array"
  else
    let pat := jsonrpcMsgPattern m.type
    let t := jsonrpc_msg_type_to_string m.type
    if m.method.isSome != pat.method then some (jsonrpcValidErr t "method" pat.method)
    else if m.params.isSome != pat.params then some (jsonrpcValidErr t "params" pat.params)
    else if m.result.isSome != pat.result then some (jsonrpcValidErr t "result" pat.result)
    else if m.error.isSome != pat.error then some (jsonrpcValidErr t "error" pat.error)
    else if m.id.isSome != pat.id then some (jsonrpcValidErr t "id" pat.id)
    else none

/-- Model of null_from_json_null: a field whose value is JSON null is
turned into an absent field. -/
def null_from_json_null : Option Json → Option Json
  | some Json.null => none
  | j => j

/-- Model of shash_find_and_delete on a JSON object: returns the value of
the first member with the given name (none when absent) together with the
object with that member removed. -/
def shashFindAndDelete (name : String) :
    List (String × Json) → Option Json × List (String × Json)
  | [] => (none, [])
  | (k, v) :: rest =>
      if k = name then (some v, rest)
      else
        let r := shashFindAndDelete name rest
        (r.1, (k, v) :: r.2)

/-- Model of shash_find on a JSON object: the value of the first member
with the given name. -/
def shashFind (name : String) : List (String × Json) → Option Json
  | [] => none
  | (k, v) :: rest => if k = name then some v else shashFind name rest

/-- Member names of a JSON object. -/
def shashKeys (object : List (String × Json)) : List String :=
  object.map Prod.fst

/-- Tail of jsonrpc_msg_from_json once the five fields have been extracted
and null-stripped: infer the variant by the priority result, error, id,
then run jsonrpc_msg_is_valid. -/
def fromJsonParts (method : Option String) (params result error id : Option Json) :
    Except String JsonrpcMsg :=
  let type :=
    if result.isSome then JsonrpcMsgType.reply
    else if error.isSome then JsonrpcMsgType.error
    else if id.isSome then JsonrpcMsgType.request
    else JsonrpcMsgType.notify
  let msg : JsonrpcMsg := ⟨type, method, params, result, error, id⟩
  match jsonrpc_msg_is_valid msg with
  | some e => Except.error e
  | none => Except.ok msg

/-- Stage of jsonrpc_msg_from_json once all five fields are extracted and
null-stripped: any member left over is rejected by name (shash_first of
the remaining object); otherwise the message is assembled and validated. -/
def fromJsonAfterId (method : Option String) (params result error id : Option Json)
    (remaining : List (String × Json)) : Except String JsonrpcMsg :=
  match remaining with
  | [] => fromJsonParts method params result error id
  | (name, _) :: _ =>
      Except.error ("message has unexpected member \"" ++ name ++ "\"")

/-- Stage of jsonrpc_msg_from_json after the error extraction: extract
and null-strip the id. -/
def fromJsonAfterError (method : Option String) (params result : Option Json)
    (e : Option Json × List (String × Json)) : Except String JsonrpcMsg :=
  fromJsonAfterId method params result (null_from_json_null e.1)
    (null_from_json_null (shashFindAndDelete "id" e.2).1)
    (shashFindAndDelete "id" e.2).2

/-- Stage of jsonrpc_msg_from_json after the result extraction. -/
def fromJsonAfterResult (method : Option String) (params : Option Json)
    (r : Option Json × List (String × Json)) : Except String JsonrpcMsg :=
  fromJsonAfterError method params (null_from_json_null r.1)
    (shashFindAndDelete "error" r.2)

/-- Stage of jsonrpc_msg_from_json after the method extraction: extract
params, result, error and id in source order, null-stripping each. -/
def fromJsonBody (method : Option String) (object : List (String × Json)) :
    Except String JsonrpcMsg :=
  fromJsonAfterResult method
    (null_from_json_null (shashFindAndDelete "params" object).1)
    (shashFindAndDelete "result" (shashFindAndDelete "params" object).2)

/-- Model of jsonrpc_msg_from_json: requires a JSON object, extracts the
five known members (method first, rejected when present and not a
string), rejects any member left over, infers the variant and validates.
The C function communicates failure through a returned error string and
success through msgp; both are folded into the Except result. -/
def jsonrpc_msg_from_json (json : Json) : Except String JsonrpcMsg :=
  match json with
  | Json.obj object =>
      match (shashFindAndDelete "method" object).1 with
      | some (Json.str s) => fromJsonBody (some s) (shashFindAndDelete "method" object).2
      | some _ => Except.error "method is not a JSON string"
      | none => fromJsonBody none (shashFindAndDelete "method" object).2
  | _ => Except.error "message is not a JSON object"

/-- Model of jsonrpc_msg_to_json: emits the present fields in source
order and pads with JSON null: an Error message pads result, a Reply
pads error, a Notify pads id. -/
def jsonrpc_msg_to_json (m : JsonrpcMsg) : Json :=
  Json.obj
    ((match m.method with
      | some s => [("method", Json.str s)]
      | none => [])
     ++ (match m.params with
      | some p => [("params", p)]
      | none => [])
     ++ (match m.result with
      | some r => [("result", r)]
      | none => if m.type = JsonrpcMsgType.error then [("result", Json.null)] else [])
     ++ (match m.error with
      | some e => [("error", e)]
      | none => if m.type = JsonrpcMsgType.reply then [("error", Json.null)] else [])
     ++ (match m.id with
      | some i => [("id", i)]
      | none => if m.type = JsonrpcMsgType.notify then [("id", Json.null)] else []))

/-!
Endpoint layer.  struct jsonrpc owns a stream, a sticky status, an input
side (byteq, incremental parser, one buffered received message) and an
output side (queue of serialized buffers plus a backlog byte count).
The stream and the incremental parser are external collaborators; their
per-call behaviour enters the model as explicit results.  Of each queued
output buffer only its remaining unsent byte count is observable to the
properties below, so buffers are carried as byte counts.
-/

/-- Error constants used by jsonrpc.c: EAGAIN and EPROTO are the POSIX
values, EOF is the stdio sentinel. -/
def jsonrpcEAGAIN : Int := 11

def jsonrpcEPROTO : Int := 71

def jsonrpcEOF : Int := -1

/-- Model of struct jsonrpc.  status is the sticky latch (0 = healthy);
received is the one buffered inbound message; output holds the remaining
byte count of each queued send buffer; backlog is the total byte count
the C code maintains alongside the queue. -/
structure Jsonrpc where
  status : Int
  received : Option JsonrpcMsg
  output : List Nat
  backlog : Nat
deriving DecidableEq

/-- Model of jsonrpc_open: a fresh endpoint is healthy and empty. -/
def jsonrpc_open : Jsonrpc :=
  ⟨0, none, [], 0⟩

/-- Model of jsonrpc_cleanup: releases stream, parser, buffered message
and the whole send queue, and zeroes the backlog. -/
def jsonrpc_cleanup (rpc : Jsonrpc) : Jsonrpc :=
  { rpc with received := none, output := [], backlog := 0 }

/-- Model of jsonrpc_error: latches the first nonzero status and tears
everything down; a later error never overwrites the first.  The C
function asserts that the argument is nonzero. -/
def jsonrpc_error (rpc : Jsonrpc) (error : Int) : Jsonrpc :=
  if rpc.status = 0 then jsonrpc_cleanup { rpc with status := error }
  else rpc

/-- Model of jsonrpc_get_status. -/
def jsonrpc_get_status (rpc : Jsonrpc) : Int :=
  rpc.status

/-- Model of jsonrpc_get_backlog: 0 once the endpoint is dead. -/
def jsonrpc_get_backlog (rpc : Jsonrpc) : Nat :=
  if rpc.status = 0 then rpc.backlog else 0

/-- Result of one stream_send call made by the drain loop of
jsonrpc_run: the stream accepts some bytes (never more than offered),
reports EAGAIN, or fails with a nonzero error code. -/
inductive StreamSendResult where
  | accepted (n : Nat)
  | eagain
  | failed (e : Int)

/-- Drain loop of jsonrpc_run over the send queue: for each queued
buffer write as many bytes as the stream accepts, pulling partial writes
from the head of the buffer and popping emptied buffers; stop on EAGAIN,
latch on any other error (third component, 0 = no error).  One transport
result is consumed per stream_send call; an exhausted result list stands
for a stream that accepts nothing more, ending the loop like EAGAIN.
The accepted count is clamped to the buffer size offered, which
stream_send guarantees. -/
def jsonrpc_run_loop : List Nat → Nat → List StreamSendResult → List Nat × Nat × Int
  | output, backlog, [] => (output, backlog, 0)
  | [], backlog, _ :: _ => ([], backlog, 0)
  | buf :: rest, backlog, StreamSendResult.accepted n :: results =>
      let k := min n buf
      if buf - k = 0 then jsonrpc_run_loop rest (backlog - k) results
      else jsonrpc_run_loop ((buf - k) :: rest) (backlog - k) results
  | buf :: rest, backlog, StreamSendResult.eagain :: _ => (buf :: rest, backlog, 0)
  | _ :: _, _, StreamSendResult.failed e :: _ => ([], 0, e)

/-- Model of jsonrpc_run: a no-op on a dead endpoint; otherwise drains
the send queue against the stream, latching any stream error through
jsonrpc_error. -/
def jsonrpc_run (rpc : Jsonrpc) (results : List StreamSendResult) : Jsonrpc :=
  if rpc.status = 0 then
    if (jsonrpc_run_loop rpc.output rpc.backlog results).2.2 = 0 then
      { rpc with output := (jsonrpc_run_loop rpc.output rpc.backlog results).1,
                 backlog := (jsonrpc_run_loop rpc.output rpc.backlog results).2.1 }
    else jsonrpc_error rpc (jsonrpc_run_loop rpc.output rpc.backlog results).2.2
  else rpc

/-- Model of jsonrpc_send.  A dead endpoint destroys the message and
returns the latched status without touching the queue.  Otherwise the
message is serialized externally (json_to_string of
jsonrpc_msg_to_json); only the byte length of that buffer enters the
queue and the backlog.  When the queued buffer is the only one, the
queue is opportunistically drained once via jsonrpc_run.  Returns the
new endpoint state and the status result. -/
def jsonrpc_send (rpc : Jsonrpc) (length : Nat) (results : List StreamSendResult) :
    Jsonrpc × Int :=
  if rpc.status = 0 then
    let pushed : Jsonrpc :=
      { rpc with output := rpc.output ++ [length], backlog := rpc.backlog + length }
    let ran := if pushed.output.length = 1 then jsonrpc_run pushed results else pushed
    (ran, ran.status)
  else (rpc, rpc.status)

/-- Outcome of the receive loop of jsonrpc_recv for one call, summarising
the externally driven byteq, stream_recv and json_parser interplay:
either the stream is not ready, or it failed, or it reached end of
stream, or a complete JSON value was framed and decoded into a message,
or framing or decoding failed (a parse error value or a
jsonrpc_msg_from_json rejection, both latched as EPROTO via
jsonrpc_received). -/
inductive RecvOutcome where
  | eagain
  | failed (e : Int)
  | endOfStream
  | message (m : JsonrpcMsg)
  | protoViolation

/-- Model of jsonrpc_recv: a dead endpoint reports its latched status and
no message; otherwise a buffered message is delivered immediately, else
the receive loop runs to the supplied outcome.  Stream errors, end of
stream and protocol violations latch through jsonrpc_error (EOF and
EPROTO for the latter two); EAGAIN leaves the endpoint untouched. -/
def jsonrpc_recv (rpc : Jsonrpc) (outcome : RecvOutcome) :
    Jsonrpc × Option JsonrpcMsg × Int :=
  if rpc.status = 0 then
    match rpc.received with
    | some m => ({ rpc with received := none }, some m, 0)
    | none =>
        match outcome with
        | .eagain => (rpc, none, jsonrpcEAGAIN)
        | .failed e => (jsonrpc_error rpc e, none, e)
        | .endOfStream => (jsonrpc_error rpc jsonrpcEOF, none, jsonrpcEOF)
        | .message m => (rpc, some m, 0)
        | .protoViolation => (jsonrpc_error rpc jsonrpcEPROTO, none, jsonrpcEPROTO)
  else (rpc, none, rpc.status)

/-- One caller-visible operation on the output side of an endpoint: a
send of a buffer of the given serialized length, or a run, each with the
per-call stream acceptance results. -/
inductive JsonrpcOp where
  | send (length : Nat) (results : List StreamSendResult)
  | run (results : List StreamSendResult)

def jsonrpcStep (rpc : Jsonrpc) : JsonrpcOp → Jsonrpc
  | .send length results => (jsonrpc_send rpc length results).1
  | .run results => jsonrpc_run rpc results

def jsonrpcExec (rpc : Jsonrpc) : List JsonrpcOp → Jsonrpc
  | [] => rpc
  | op :: ops => jsonrpcExec (jsonrpcStep rpc op) ops

/-!
Blocking helpers and transaction.  jsonrpc_recv_block spins jsonrpc_recv
against the poll loop until it returns something other than EAGAIN, so
each completed call yields either a nonzero error or a message; a
transaction consumes a list of such outcomes in order.
-/

/-- One completed jsonrpc_recv_block outcome inside
jsonrpc_transact_block: a nonzero error, or a received message. -/
inductive RecvBlockResult where
  | failed (e : Int)
  | received (m : JsonrpcMsg)

/-- Matching test of the transaction loop, exactly the C condition
reply->type == JSONRPC_REPLY && json_equal(id, reply->id).  Inbound
messages delivered by jsonrpc_recv carry a non-null id whenever they are
replies, so a missing id compares unequal. -/
def jsonrpcTransactMatches (id : Json) (reply : JsonrpcMsg) : Bool :=
  decide (reply.type = JsonrpcMsgType.reply) &&
    (match reply.id with
     | some rid => json_equal id rid
     | none => false)

/-- Receive loop of jsonrpc_transact_block: take completed receive
outcomes in order, destroying every message that is not a matching
reply; stop at the first error (no reply) or the first matching reply
(status 0).  none stands for the loop never completing because
jsonrpc_recv_block blocks forever on an exhausted outcome list. -/
def jsonrpcTransactLoop (id : Json) :
    List RecvBlockResult → Option (Int × Option JsonrpcMsg)
  | [] => none
  | RecvBlockResult.failed e :: _ => some (e, none)
  | RecvBlockResult.received m :: rest =>
      if jsonrpcTransactMatches id m then some (0, some m)
      else jsonrpcTransactLoop id rest

/-- Model of jsonrpc_transact_block: clones the id of the request before
jsonrpc_send_block consumes the request (values are immutable here, so
the clone is the id itself), sends, and on send success runs the receive
loop.  sendResult is the jsonrpc_send_block status: on a nonzero send
error the transaction returns that error and no reply. -/
def jsonrpc_transact_block (sendResult : Int) (id : Json)
    (incoming : List RecvBlockResult) : Option (Int × Option JsonrpcMsg) :=
  if sendResult = 0 then jsonrpcTransactLoop id incoming
  else some (sendResult, none)

/-!
Session layer.  struct jsonrpc_session owns a reconnect controller, a
seqno counter, and at most one of a live endpoint (rpc) or an in-progress
connecting stream.  The controller, the wall clock and the stream are
external; only possession of the endpoint and the stream is relevant to
the session state machine, so both are carried as presence flags.
-/

/-- Model of struct jsonrpc_session: rpc and stream record possession of
the live endpoint and of the connecting stream. -/
structure JsonrpcSession where
  rpc : Bool
  stream : Bool
  seqno : Nat
deriving DecidableEq

/-- Model of jsonrpc_session_open: neither endpoint nor stream, seqno 0. -/
def jsonrpc_session_open : JsonrpcSession :=
  ⟨false, false, 0⟩

/-- Decision returned by reconnect_run of the external controller. -/
inductive ReconnectDecision where
  | nothing
  | connect
  | disconnect
  | probe

/-- External inputs consumed by one jsonrpc_session_run step: the
endpoint status observed after driving it, the stream_connect result
while connecting, the controller decision for this tick, and the
stream_open result should the decision be connect (0 = success). -/
structure SessionRunEnv where
  rpcStatus : Int
  connectResult : Int
  decision : ReconnectDecision
  openResult : Int

/-- Model of jsonrpc_session_disconnect: closing the endpoint (after
latching EOF into it) or closing the connecting stream increments seqno;
with neither, nothing happens. -/
def jsonrpc_session_disconnect (s : JsonrpcSession) : JsonrpcSession :=
  if s.rpc then { s with rpc := false, seqno := s.seqno + 1 }
  else if s.stream then { s with stream := false, seqno := s.seqno + 1 }
  else s

/-- Model of jsonrpc_session_connect: disconnect whatever is held, then
stream_open a fresh stream (possession only on success, the controller
is told either way), and increment seqno unconditionally. -/
def jsonrpc_session_connect (s : JsonrpcSession) (openResult : Int) : JsonrpcSession :=
  let s := jsonrpc_session_disconnect s
  let s := if openResult = 0 then { s with stream := true } else s
  { s with seqno := s.seqno + 1 }

/-- Model of jsonrpc_session_run: drive the endpoint (tearing it down via
the disconnect path when its status has gone nonzero), or drive the
connecting stream (promoting it to a fresh endpoint on success, closing
it on a non-EAGAIN error); then act on the controller decision.  The
probe decision sends an echo request without changing possession. -/
def jsonrpc_session_run (s : JsonrpcSession) (env : SessionRunEnv) : JsonrpcSession :=
  let s :=
    if s.rpc then
      if env.rpcStatus = 0 then s else jsonrpc_session_disconnect s
    else if s.stream then
      if env.connectResult = 0 then { s with rpc := true, stream := false }
      else if env.connectResult = jsonrpcEAGAIN then s
      else { s with stream := false }
    else s
  match env.decision with
  | .connect => jsonrpc_session_connect s env.openResult
  | .disconnect => jsonrpc_session_disconnect s
  | .nothing => s
  | .probe => s

/-- Echo request built by the probe branch of jsonrpc_session_run: a
fresh request with method echo and empty params whose minted integer id
is destroyed and replaced by the JSON string echo. -/
def jsonrpc_session_probe_request (counter : Nat) : JsonrpcMsg × Nat :=
  let minted := jsonrpc_create_request "echo" (Json.arr []) counter
  ({ minted.1 with id := some (Json.str "echo") }, minted.2)

/-- Message sent by the probe branch of jsonrpc_session_run: only with a
live endpoint is the echo request built and sent. -/
def jsonrpc_session_run_probe (connected : Bool) (counter : Nat) :
    Option JsonrpcMsg × Nat :=
  if connected then
    let built := jsonrpc_session_probe_request counter
    (some built.1, built.2)
  else (none, counter)

/-- Receive-path interception of jsonrpc_session_recv, applied to a
message delivered by jsonrpc_recv: an echo request is answered with a
reply carrying the same params and id and is consumed; a reply whose id
is the JSON string echo is consumed silently; every other message is
passed through.  Returns the message given to the caller and the reply
the session sends back. -/
def jsonrpc_session_recv_handle (m : JsonrpcMsg) :
    Option JsonrpcMsg × Option JsonrpcMsg :=
  if m.type = JsonrpcMsgType.request && m.method = some "echo" then
    (none, match m.id with
           | some i => some (jsonrpc_create_reply m.params i)
           | none => none)
  else if m.type = JsonrpcMsgType.reply &&
      (match m.id with
       | some (Json.str s) => s = "echo"
       | _ => false) then
    (none, none)
  else (some m, none)

/-!
Helper lemmas about the shash model.  These support the from_json
theorems: the extraction pipeline of jsonrpc_msg_from_json is a chain of
shash_find_and_delete calls, and the lemmas track what each call finds
and what it leaves behind.
-/

theorem shashFindAndDelete_fst (name : String) (l : List (String × Json)) :
    (shashFindAndDelete name l).1 = shashFind name l := by
  induction l with
  | nil => rfl
  | cons hd tl ih =>
      obtain ⟨k, v⟩ := hd
      simp only [shashFindAndDelete, shashFind]
      by_cases hk : k = name
      · simp [hk]
      · simp [hk, ih]

theorem shashFindAndDelete_sublist (name : String) (l : List (String × Json)) :
    (shashFindAndDelete name l).2.Sublist l := by
  induction l with
  | nil => simp [shashFindAndDelete]
  | cons hd tl ih =>
      obtain ⟨k, v⟩ := hd
      simp only [shashFindAndDelete]
      by_cases hk : k = name
      · simp only [if_pos hk]
        exact List.sublist_cons_self _ _
      · simp only [if_neg hk]
        exact List.Sublist.cons₂ _ ih

theorem shashFindAndDelete_not_mem (name : String) (l : List (String × Json))
    (h : name ∉ shashKeys l) : shashFindAndDelete name l = (none, l) := by
  induction l with
  | nil => rfl
  | cons hd tl ih =>
      obtain ⟨k, v⟩ := hd
      simp only [shashKeys, List.map_cons, List.mem_cons] at h
      push_neg at h
      simp only [shashFindAndDelete]
      rw [if_neg (fun hh => h.1 hh.symm)]
      rw [ih (by simpa [shashKeys] using h.2)]

theorem shashFindAndDelete_first (name : String) (v : Json)
    (pre post : List (String × Json)) (h : name ∉ shashKeys pre) :
    shashFindAndDelete name (pre ++ (name, v) :: post) = (some v, pre ++ post) := by
  induction pre with
  | nil => simp [shashFindAndDelete]
  | cons hd tl ih =>
      obtain ⟨k, w⟩ := hd
      simp only [shashKeys, List.map_cons, List.mem_cons] at h
      push_neg at h
      simp only [List.cons_append, shashFindAndDelete, List.append_eq]
      rw [if_neg (fun hh => h.1 hh.symm)]
      rw [ih (by simpa [shashKeys] using h.2)]

theorem shashFind_delete_ne (m name : String) (l : List (String × Json))
    (h : m ≠ name) : shashFind m (shashFindAndDelete name l).2 = shashFind m l := by
  induction l with
  | nil => rfl
  | cons hd tl ih =>
      obtain ⟨k, v⟩ := hd
      simp only [shashFindAndDelete, shashFind]
      by_cases hk : k = name
      · rw [if_pos hk]
        rw [if_neg (show ¬k = m from fun hh => h (by rw [← hh]; exact hk))]
      · rw [if_neg hk]
        by_cases hm : k = m
        · simp [shashFind, hm]
        · simp only [shashFind]
          rw [if_neg hm, if_neg hm, ih]

theorem shashFindAndDelete_key_not_mem (name : String) (l : List (String × Json))
    (h : (shashKeys l).Nodup) : name ∉ shashKeys (shashFindAndDelete name l).2 := by
  induction l with
  | nil => simp [shashFindAndDelete, shashKeys]
  | cons hd tl ih =>
      obtain ⟨k, v⟩ := hd
      simp only [shashKeys, List.map_cons, List.nodup_cons] at h
      simp only [shashFindAndDelete]
      by_cases hk : k = name
      · rw [if_pos hk]
        subst hk
        exact fun hm => h.1 (by simpa [shashKeys] using hm)
      · rw [if_neg hk]
        intro hm
        simp only [shashKeys, List.map_cons, List.mem_cons] at hm
        rcases hm with hm | hm
        · exact hk hm.symm
        · exact ih h.2 (by simpa [shashKeys] using hm)

theorem mem_shashFindAndDelete_of_ne (k : String) (v : Json) (name : String)
    (l : List (String × Json)) (h : (k, v) ∈ l) (hkn : k ≠ name) :
    (k, v) ∈ (shashFindAndDelete name l).2 := by
  induction l with
  | nil => cases h
  | cons hd tl ih =>
      obtain ⟨a, b⟩ := hd
      simp only [shashFindAndDelete]
      by_cases ha : a = name
      · rw [if_pos ha]
        rcases List.mem_cons.mp h with hh | hh
        · cases hh
          exact absurd ha hkn
        · exact hh
      · rw [if_neg ha]
        rcases List.mem_cons.mp h with hh | hh
        · cases hh
          exact List.mem_cons_self _ _
        · exact List.mem_cons_of_mem _ (ih hh)

theorem keys_sublist_of_delete (name : String) (l : List (String × Json)) :
    (shashKeys (shashFindAndDelete name l).2).Sublist (shashKeys l) :=
  List.Sublist.map Prod.fst (shashFindAndDelete_sublist name l)

theorem nodup_keys_delete (name : String) (l : List (String × Json))
    (h : (shashKeys l).Nodup) : (shashKeys (shashFindAndDelete name l).2).Nodup :=
  h.sublist (keys_sublist_of_delete name l)

theorem shashFindAndDelete_middle (n k : String) (v : Json)
    (pre post : List (String × Json)) (hnk : n ≠ k) :
    ∃ pre2 post2, pre2.Sublist pre ∧ post2.Sublist post ∧
      shashFindAndDelete n (pre ++ (k, v) :: post) =
        ((shashFindAndDelete n (pre ++ post)).1, pre2 ++ (k, v) :: post2) ∧
      (shashFindAndDelete n (pre ++ post)).2 = pre2 ++ post2 := by
  induction pre with
  | nil =>
      refine ⟨[], (shashFindAndDelete n post).2, List.Sublist.refl _,
        shashFindAndDelete_sublist n post, ?_, ?_⟩
      · simp only [List.nil_append, shashFindAndDelete]
        rw [if_neg (fun hh => hnk hh.symm)]
      · simp [List.nil_append]
  | cons hd tl ih =>
      obtain ⟨a, b⟩ := hd
      by_cases ha : a = n
      · refine ⟨tl, post, List.sublist_cons_self _ _ |>.trans (List.Sublist.refl _) |>.trans
          (List.Sublist.refl _), List.Sublist.refl _, ?_, ?_⟩
        · simp only [List.cons_append, shashFindAndDelete]
          rw [if_pos ha, if_pos ha]
          rfl
        · simp only [List.cons_append, shashFindAndDelete]
          rw [if_pos ha]
          rfl
      · obtain ⟨pre2, post2, hsp, hsq, heq1, heq2⟩ := ih
        refine ⟨(a, b) :: pre2, post2, List.Sublist.cons₂ _ hsp, hsq, ?_, ?_⟩
        · simp only [List.cons_append, shashFindAndDelete, List.append_eq]
          rw [if_neg ha, if_neg ha, heq1]
        · simp only [List.cons_append, shashFindAndDelete, List.append_eq]
          rw [if_neg ha, heq2]

theorem not_mem_keys_of_sublist (k : String) (l1 l2 : List (String × Json))
    (hs : l1.Sublist l2) (h : k ∉ shashKeys l2) : k ∉ shashKeys l1 :=
  fun hm => h ((List.Sublist.map Prod.fst hs).subset hm)

theorem not_mem_keys_append (k : String) (pre post : List (String × Json))
    (hpre : k ∉ shashKeys pre) (hpost : k ∉ shashKeys post) :
    k ∉ shashKeys (pre ++ post) := by
  simp only [shashKeys, List.map_append, List.mem_append]
  exact fun h => h.elim (fun hh => hpre hh) (fun hh => hpost hh)

theorem fromJsonBody_null_params (mth : Option String)
    (pre post : List (String × Json)) (hpre : "params" ∉ shashKeys pre)
    (hpost : "params" ∉ shashKeys post) :
    fromJsonBody mth (pre ++ ("params", Json.null) :: post) =
      fromJsonBody mth (pre ++ post) := by
  have hfirst := shashFindAndDelete_first "params" Json.null pre post hpre
  have hnm := shashFindAndDelete_not_mem "params" (pre ++ post)
    (not_mem_keys_append _ _ _ hpre hpost)
  have ha : (shashFindAndDelete "params" (pre ++ ("params", Json.null) :: post)).1
      = some Json.null := by rw [hfirst]
  have hb : (shashFindAndDelete "params" (pre ++ ("params", Json.null) :: post)).2
      = pre ++ post := by rw [hfirst]
  have hc : (shashFindAndDelete "params" (pre ++ post)).1 = none := by rw [hnm]
  have hd : (shashFindAndDelete "params" (pre ++ post)).2 = pre ++ post := by rw [hnm]
  simp only [fromJsonBody, ha, hb, hc, hd, null_from_json_null]

theorem fromJsonBody_null_result (mth : Option String)
    (pre post : List (String × Json)) (hpre : "result" ∉ shashKeys pre)
    (hpost : "result" ∉ shashKeys post) :
    fromJsonBody mth (pre ++ ("result", Json.null) :: post) =
      fromJsonBody mth (pre ++ post) := by
  obtain ⟨pre2, post2, hsp, hsq, heq1, heq2⟩ :=
    shashFindAndDelete_middle "params" "result" Json.null pre post (by decide)
  have hp1 : (shashFindAndDelete "params" (pre ++ ("result", Json.null) :: post)).1
      = (shashFindAndDelete "params" (pre ++ post)).1 := by rw [heq1]
  have hp2 : (shashFindAndDelete "params" (pre ++ ("result", Json.null) :: post)).2
      = pre2 ++ ("result", Json.null) :: post2 := by rw [heq1]
  have hp2b : "result" ∉ shashKeys pre2 := not_mem_keys_of_sublist _ _ _ hsp hpre
  have hq2b : "result" ∉ shashKeys post2 := not_mem_keys_of_sublist _ _ _ hsq hpost
  have hfirst := shashFindAndDelete_first "result" Json.null pre2 post2 hp2b
  have hnm := shashFindAndDelete_not_mem "result" (pre2 ++ post2)
    (not_mem_keys_append _ _ _ hp2b hq2b)
  have ha : (shashFindAndDelete "result" (pre2 ++ ("result", Json.null) :: post2)).1
      = some Json.null := by rw [hfirst]
  have hb : (shashFindAndDelete "result" (pre2 ++ ("result", Json.null) :: post2)).2
      = pre2 ++ post2 := by rw [hfirst]
  have hc : (shashFindAndDelete "result" (pre2 ++ post2)).1 = none := by rw [hnm]
  have hd : (shashFindAndDelete "result" (pre2 ++ post2)).2 = pre2 ++ post2 := by
    rw [hnm]
  simp only [fromJsonBody, fromJsonAfterResult, hp1, hp2, heq2, ha, hb, hc, hd,
    null_from_json_null]

theorem fromJsonBody_null_error (mth : Option String)
    (pre post : List (String × Json)) (hpre : "error" ∉ shashKeys pre)
    (hpost : "error" ∉ shashKeys post) :
    fromJsonBody mth (pre ++ ("error", Json.null) :: post) =
      fromJsonBody mth (pre ++ post) := by
  obtain ⟨pre2, post2, hsp2, hsq2, heq1, heq2⟩ :=
    shashFindAndDelete_middle "params" "error" Json.null pre post (by decide)
  obtain ⟨pre3, post3, hsp3, hsq3, heq3, heq4⟩ :=
    shashFindAndDelete_middle "result" "error" Json.null pre2 post2 (by decide)
  have hp1 : (shashFindAndDelete "params" (pre ++ ("error", Json.null) :: post)).1
      = (shashFindAndDelete "params" (pre ++ post)).1 := by rw [heq1]
  have hp2 : (shashFindAndDelete "params" (pre ++ ("error", Json.null) :: post)).2
      = pre2 ++ ("error", Json.null) :: post2 := by rw [heq1]
  have hr1 : (shashFindAndDelete "result" (pre2 ++ ("error", Json.null) :: post2)).1
      = (shashFindAndDelete "result" (pre2 ++ post2)).1 := by rw [heq3]
  have hr2 : (shashFindAndDelete "result" (pre2 ++ ("error", Json.null) :: post2)).2
      = pre3 ++ ("error", Json.null) :: post3 := by rw [heq3]
  have hp3 : "error" ∉ shashKeys pre3 :=
    not_mem_keys_of_sublist _ _ _ (hsp3.trans hsp2) hpre
  have hq3 : "error" ∉ shashKeys post3 :=
    not_mem_keys_of_sublist _ _ _ (hsq3.trans hsq2) hpost
  have hfirst := shashFindAndDelete_first "error" Json.null pre3 post3 hp3
  have hnm := shashFindAndDelete_not_mem "error" (pre3 ++ post3)
    (not_mem_keys_append _ _ _ hp3 hq3)
  have ha : (shashFindAndDelete "error" (pre3 ++ ("error", Json.null) :: post3)).1
      = some Json.null := by rw [hfirst]
  have hb : (shashFindAndDelete "error" (pre3 ++ ("error", Json.null) :: post3)).2
      = pre3 ++ post3 := by rw [hfirst]
  have hc : (shashFindAndDelete "error" (pre3 ++ post3)).1 = none := by rw [hnm]
  have hd : (shashFindAndDelete "error" (pre3 ++ post3)).2 = pre3 ++ post3 := by
    rw [hnm]
  simp only [fromJsonBody, fromJsonAfterResult, fromJsonAfterError, hp1, hp2, heq2,
    hr1, hr2, heq4, ha, hb, hc, hd, null_from_json_null]

theorem fromJsonBody_null_id (mth : Option String)
    (pre post : List (String × Json)) (hpre : "id" ∉ shashKeys pre)
    (hpost : "id" ∉ shashKeys post) :
    fromJsonBody mth (pre ++ ("id", Json.null) :: post) =
      fromJsonBody mth (pre ++ post) := by
  obtain ⟨pre2, post2, hsp2, hsq2, heq1, heq2⟩ :=
    shashFindAndDelete_middle "params" "id" Json.null pre post (by decide)
  obtain ⟨pre3, post3, hsp3, hsq3, heq3, heq4⟩ :=
    shashFindAndDelete_middle "result" "id" Json.null pre2 post2 (by decide)
  obtain ⟨pre4, post4, hsp4, hsq4, heq5, heq6⟩ :=
    shashFindAndDelete_middle "error" "id" Json.null pre3 post3 (by decide)
  have hp1 : (shashFindAndDelete "params" (pre ++ ("id", Json.null) :: post)).1
      = (shashFindAndDelete "params" (pre ++ post)).1 := by rw [heq1]
  have hp2 : (shashFindAndDelete "params" (pre ++ ("id", Json.null) :: post)).2
      = pre2 ++ ("id", Json.null) :: post2 := by rw [heq1]
  have hr1 : (shashFindAndDelete "result" (pre2 ++ ("id", Json.null) :: post2)).1
      = (shashFindAndDelete "result" (pre2 ++ post2)).1 := by rw [heq3]
  have hr2 : (shashFindAndDelete "result" (pre2 ++ ("id", Json.null) :: post2)).2
      = pre3 ++ ("id", Json.null) :: post3 := by rw [heq3]
  have he1 : (shashFindAndDelete "error" (pre3 ++ ("id", Json.null) :: post3)).1
      = (shashFindAndDelete "error" (pre3 ++ post3)).1 := by rw [heq5]
  have he2 : (shashFindAndDelete "error" (pre3 ++ ("id", Json.null) :: post3)).2
      = pre4 ++ ("id", Json.null) :: post4 := by rw [heq5]
  have hp4 : "id" ∉ shashKeys pre4 :=
    not_mem_keys_of_sublist _ _ _ ((hsp4.trans hsp3).trans hsp2) hpre
  have hq4 : "id" ∉ shashKeys post4 :=
    not_mem_keys_of_sublist _ _ _ ((hsq4.trans hsq3).trans hsq2) hpost
  have hfirst := shashFindAndDelete_first "id" Json.null pre4 post4 hp4
  have hnm := shashFindAndDelete_not_mem "id" (pre4 ++ post4)
    (not_mem_keys_append _ _ _ hp4 hq4)
  have ha : (shashFindAndDelete "id" (pre4 ++ ("id", Json.null) :: post4)).1
      = some Json.null := by rw [hfirst]
  have hb : (shashFindAndDelete "id" (pre4 ++ ("id", Json.null) :: post4)).2
      = pre4 ++ post4 := by rw [hfirst]
  have hc : (shashFindAndDelete "id" (pre4 ++ post4)).1 = none := by rw [hnm]
  have hd : (shashFindAndDelete "id" (pre4 ++ post4)).2 = pre4 ++ post4 := by
    rw [hnm]
  simp only [fromJsonBody, fromJsonAfterResult, fromJsonAfterError, hp1, hp2, heq2,
    hr1, hr2, heq4, he1, he2, heq6, ha, hb, hc, hd, null_from_json_null]

theorem fromJson_null_method (pre post : List (String × Json))
    (hpre : "method" ∉ shashKeys pre) :
    jsonrpc_msg_from_json (Json.obj (pre ++ ("method", Json.null) :: post)) =
      Except.error "method is not a JSON string" := by
  simp only [jsonrpc_msg_from_json]
  rw [shashFindAndDelete_first _ _ _ _ hpre]

/-- Names of the five members jsonrpc_msg_from_json understands. -/
def jsonrpcMemberNames : List String :=
  ["method", "params", "result", "error", "id"]

theorem shashKeys_nil (l : List (String × Json)) (h : shashKeys l = []) : l = [] := by
  cases l with
  | nil => rfl
  | cons hd tl => simp [shashKeys] at h

theorem fromJsonBody_char (o : List (String × Json)) (mth : Option String)
    (hnd : (shashKeys o).Nodup)
    (hsub : ∀ k ∈ shashKeys o, k ∈ jsonrpcMemberNames) :
    fromJsonBody mth (shashFindAndDelete "method" o).2 =
      fromJsonParts mth (null_from_json_null (shashFind "params" o))
        (null_from_json_null (shashFind "result" o))
        (null_from_json_null (shashFind "error" o))
        (null_from_json_null (shashFind "id" o)) := by
  have s1 := shashFindAndDelete_sublist "method" o
  have s2 := shashFindAndDelete_sublist "params" (shashFindAndDelete "method" o).2
  have s3 := shashFindAndDelete_sublist "result"
    (shashFindAndDelete "params" (shashFindAndDelete "method" o).2).2
  have s4 := shashFindAndDelete_sublist "error"
    (shashFindAndDelete "result"
      (shashFindAndDelete "params" (shashFindAndDelete "method" o).2).2).2
  have s5 := shashFindAndDelete_sublist "id"
    (shashFindAndDelete "error"
      (shashFindAndDelete "result"
        (shashFindAndDelete "params" (shashFindAndDelete "method" o).2).2).2).2
  have fp : shashFind "params" (shashFindAndDelete "method" o).2
      = shashFind "params" o := shashFind_delete_ne _ _ _ (by decide)
  have fr : shashFind "result"
      (shashFindAndDelete "params" (shashFindAndDelete "method" o).2).2
      = shashFind "result" o := by
    rw [shashFind_delete_ne _ _ _ (by decide), shashFind_delete_ne _ _ _ (by decide)]
  have fe : shashFind "error"
      (shashFindAndDelete "result"
        (shashFindAndDelete "params" (shashFindAndDelete "method" o).2).2).2
      = shashFind "error" o := by
    rw [shashFind_delete_ne _ _ _ (by decide), shashFind_delete_ne _ _ _ (by decide),
      shashFind_delete_ne _ _ _ (by decide)]
  have fi : shashFind "id"
      (shashFindAndDelete "error"
        (shashFindAndDelete "result"
          (shashFindAndDelete "params" (shashFindAndDelete "method" o).2).2).2).2
      = shashFind "id" o := by
    rw [shashFind_delete_ne _ _ _ (by decide), shashFind_delete_ne _ _ _ (by decide),
      shashFind_delete_ne _ _ _ (by decide), shashFind_delete_ne _ _ _ (by decide)]
  have nd1 := nodup_keys_delete "method" o hnd
  have nd2 := nodup_keys_delete "params" _ nd1
  have nd3 := nodup_keys_delete "result" _ nd2
  have nd4 := nodup_keys_delete "error" _ nd3
  have hm := shashFindAndDelete_key_not_mem "method" o hnd
  have hp := shashFindAndDelete_key_not_mem "params" _ nd1
  have hr := shashFindAndDelete_key_not_mem "result" _ nd2
  have he := shashFindAndDelete_key_not_mem "error" _ nd3
  have hi := shashFindAndDelete_key_not_mem "id" _ nd4
  have hnil : (shashFindAndDelete "id"
      (shashFindAndDelete "error"
        (shashFindAndDelete "result"
          (shashFindAndDelete "params" (shashFindAndDelete "method" o).2).2).2).2).2
      = [] := by
    apply shashKeys_nil
    apply List.eq_nil_iff_forall_not_mem.mpr
    intro k hk
    have k5 := keys_sublist_of_delete "id" _ |>.subset hk
    have k4 := keys_sublist_of_delete "error" _ |>.subset k5
    have k3 := keys_sublist_of_delete "result" _ |>.subset k4
    have k2 := keys_sublist_of_delete "params" _ |>.subset k3
    have k1 := keys_sublist_of_delete "method" o |>.subset k2
    have hk5 := hsub k k1
    simp only [jsonrpcMemberNames, List.mem_cons, List.not_mem_nil, or_false] at hk5
    rcases hk5 with rfl | rfl | rfl | rfl | rfl
    · exact hm k2
    · exact hp k3
    · exact hr k4
    · exact he k5
    · exact hi hk
  simp only [fromJsonBody, fromJsonAfterResult, fromJsonAfterError, fromJsonAfterId,
    shashFindAndDelete_fst, fp, fr, fe, fi, hnil]

theorem from_json_obj_method_str (o : List (String × Json)) (s : String)
    (h : shashFind "method" o = some (Json.str s)) :
    jsonrpc_msg_from_json (Json.obj o) =
      fromJsonBody (some s) (shashFindAndDelete "method" o).2 := by
  simp only [jsonrpc_msg_from_json, shashFindAndDelete_fst, h]

theorem from_json_obj_method_none (o : List (String × Json))
    (h : shashFind "method" o = none) :
    jsonrpc_msg_from_json (Json.obj o) =
      fromJsonBody none (shashFindAndDelete "method" o).2 := by
  simp only [jsonrpc_msg_from_json, shashFindAndDelete_fst, h]

theorem fromJsonParts_request (s : String) (p i : Json) (hp : p.isArray = true) :
    fromJsonParts (some s) (some p) none none (some i) =
      Except.ok ⟨JsonrpcMsgType.request, some s, some p, none, none, some i⟩ := by
  simp [fromJsonParts, jsonrpc_msg_is_valid, jsonrpcParamsNotArray, hp,
    jsonrpcMsgPattern]

theorem fromJsonParts_notify (s : String) (p : Json) (hp : p.isArray = true) :
    fromJsonParts (some s) (some p) none none none =
      Except.ok ⟨JsonrpcMsgType.notify, some s, some p, none, none, none⟩ := by
  simp [fromJsonParts, jsonrpc_msg_is_valid, jsonrpcParamsNotArray, hp,
    jsonrpcMsgPattern]

theorem fromJsonParts_reply (r i : Json) :
    fromJsonParts none none (some r) none (some i) =
      Except.ok ⟨JsonrpcMsgType.reply, none, none, some r, none, some i⟩ := rfl

theorem fromJsonParts_error_variant (e i : Json) :
    fromJsonParts none none none (some e) (some i) =
      Except.ok ⟨JsonrpcMsgType.error, none, none, none, some e, some i⟩ := rfl

theorem fromJsonBody_unexpected_member (o : List (String × Json))
    (mth : Option String) (hnd : (shashKeys o).Nodup) (k : String) (v : Json)
    (hmem : (k, v) ∈ o) (hk : k ∉ jsonrpcMemberNames) :
    ∃ k2, k2 ∉ jsonrpcMemberNames ∧ k2 ∈ shashKeys o ∧
      fromJsonBody mth (shashFindAndDelete "method" o).2 =
        Except.error ("message has unexpected member \"" ++ k2 ++ "\"") := by
  have hk5 : k ≠ "method" ∧ k ≠ "params" ∧ k ≠ "result" ∧ k ≠ "error" ∧ k ≠ "id" := by
    simp only [jsonrpcMemberNames, List.mem_cons, List.not_mem_nil, or_false] at hk
    push_neg at hk
    exact hk
  have m1 := mem_shashFindAndDelete_of_ne k v "method" o hmem hk5.1
  have m2 := mem_shashFindAndDelete_of_ne k v "params" _ m1 hk5.2.1
  have m3 := mem_shashFindAndDelete_of_ne k v "result" _ m2 hk5.2.2.1
  have m4 := mem_shashFindAndDelete_of_ne k v "error" _ m3 hk5.2.2.2.1
  have m5 := mem_shashFindAndDelete_of_ne k v "id" _ m4 hk5.2.2.2.2
  have s2 := shashFindAndDelete_sublist "params" (shashFindAndDelete "method" o).2
  have s3 := shashFindAndDelete_sublist "result"
    (shashFindAndDelete "params" (shashFindAndDelete "method" o).2).2
  have s4 := shashFindAndDelete_sublist "error"
    (shashFindAndDelete "result"
      (shashFindAndDelete "params" (shashFindAndDelete "method" o).2).2).2
  have s5 := shashFindAndDelete_sublist "id"
    (shashFindAndDelete "error"
      (shashFindAndDelete "result"
        (shashFindAndDelete "params" (shashFindAndDelete "method" o).2).2).2).2
  have nd1 := nodup_keys_delete "method" o hnd
  have nd2 := nodup_keys_delete "params" _ nd1
  have nd3 := nodup_keys_delete "result" _ nd2
  have nd4 := nodup_keys_delete "error" _ nd3
  have hm := shashFindAndDelete_key_not_mem "method" o hnd
  have hp := shashFindAndDelete_key_not_mem "params" _ nd1
  have hr := shashFindAndDelete_key_not_mem "result" _ nd2
  have he := shashFindAndDelete_key_not_mem "error" _ nd3
  have hi := shashFindAndDelete_key_not_mem "id" _ nd4
  cases h5 : (shashFindAndDelete "id"
      (shashFindAndDelete "error"
        (shashFindAndDelete "result"
          (shashFindAndDelete "params" (shashFindAndDelete "method" o).2).2).2).2).2 with
  | nil =>
      rw [h5] at m5
      cases m5
  | cons hd tl =>
      obtain ⟨k2, w⟩ := hd
      have hk2mem : k2 ∈ shashKeys ((k2, w) :: tl) := by simp [shashKeys]
      have hk2o5 : k2 ∈ shashKeys (shashFindAndDelete "id"
          (shashFindAndDelete "error"
            (shashFindAndDelete "result"
              (shashFindAndDelete "params" (shashFindAndDelete "method" o).2).2).2).2).2 := by
        rw [h5]
        exact hk2mem
      have hk2o4 := (keys_sublist_of_delete "id" _).subset hk2o5
      have hk2o3 := (keys_sublist_of_delete "error" _).subset hk2o4
      have hk2o2 := (keys_sublist_of_delete "result" _).subset hk2o3
      have hk2o1 := (keys_sublist_of_delete "params" _).subset hk2o2
      have hk2o := (keys_sublist_of_delete "method" o).subset hk2o1
      refine ⟨k2, ?_, hk2o, ?_⟩
      · intro hfive
        simp only [jsonrpcMemberNames, List.mem_cons, List.not_mem_nil, or_false] at hfive
        rcases hfive with rfl | rfl | rfl | rfl | rfl
        · exact hm hk2o1
        · exact hp hk2o2
        · exact hr hk2o3
        · exact he hk2o4
        · exact hi hk2o5
      · simp only [fromJsonBody, fromJsonAfterResult, fromJsonAfterError,
          fromJsonAfterId, h5]

/-!
Backlog accounting.  The invariant is that the backlog byte counter
always equals the sum of the remaining byte counts of the queued send
buffers; every caller-visible output-side operation preserves it.
-/

theorem jsonrpc_run_loop_invariant (results : List StreamSendResult) :
    ∀ (output : List Nat) (backlog : Nat), backlog = output.sum →
      (jsonrpc_run_loop output backlog results).2.1 =
        (jsonrpc_run_loop output backlog results).1.sum := by
  induction results with
  | nil =>
      intro output backlog h
      simpa [jsonrpc_run_loop] using h
  | cons r rest ih =>
      intro output backlog h
      cases output with
      | nil => simpa [jsonrpc_run_loop] using h
      | cons buf out =>
          cases r with
          | accepted n =>
              simp only [jsonrpc_run_loop]
              split
              · apply ih
                simp only [List.sum_cons] at h
                omega
              · apply ih
                simp only [List.sum_cons] at h ⊢
                omega
          | eagain => simpa [jsonrpc_run_loop] using h
          | failed e => simp [jsonrpc_run_loop]

theorem jsonrpc_run_invariant (rpc : Jsonrpc) (results : List StreamSendResult)
    (h : rpc.backlog = rpc.output.sum) :
    (jsonrpc_run rpc results).backlog = (jsonrpc_run rpc results).output.sum := by
  unfold jsonrpc_run
  split
  · split
    · exact jsonrpc_run_loop_invariant results rpc.output rpc.backlog h
    · unfold jsonrpc_error
      split
      all_goals simp [jsonrpc_cleanup, h]
  · exact h

theorem jsonrpc_send_invariant (rpc : Jsonrpc) (length : Nat)
    (results : List StreamSendResult) (h : rpc.backlog = rpc.output.sum) :
    (jsonrpc_send rpc length results).1.backlog =
      (jsonrpc_send rpc length results).1.output.sum := by
  unfold jsonrpc_send
  split
  · simp only []
    split
    · apply jsonrpc_run_invariant
      simp [h]
    · simp [h]
  · exact h

theorem jsonrpcStep_invariant (rpc : Jsonrpc) (op : JsonrpcOp)
    (h : rpc.backlog = rpc.output.sum) :
    (jsonrpcStep rpc op).backlog = (jsonrpcStep rpc op).output.sum := by
  cases op with
  | send length results => exact jsonrpc_send_invariant rpc length results h
  | run results => exact jsonrpc_run_invariant rpc results h

theorem jsonrpcExec_invariant (ops : List JsonrpcOp) :
    ∀ (rpc : Jsonrpc), rpc.backlog = rpc.output.sum →
      (jsonrpcExec rpc ops).backlog = (jsonrpcExec rpc ops).output.sum := by
  induction ops with
  | nil => intro rpc h; simpa [jsonrpcExec] using h
  | cons op rest ih =>
      intro rpc h
      simp only [jsonrpcExec]
      exact ih _ (jsonrpcStep_invariant rpc op h)

/-!
Claim theorems.
-/

/-- Claim C1: the claim states that jsonrpc_create_error returns a
message of the Error variant that satisfies validate.  In the source the
factory stores JSONRPC_REPLY as the type, so the message it builds is a
Reply carrying error instead of result, and jsonrpc_msg_is_valid rejects
it with the reason that a reply must have result.  Evaluated here at the
error value oops and id 0. -/
theorem claim_C1_create_error_not_error_variant :
    (jsonrpc_create_error (Json.str "oops") (Json.int 0)).type = JsonrpcMsgType.reply ∧
    (jsonrpc_create_error (Json.str "oops") (Json.int 0)).type ≠ JsonrpcMsgType.error ∧
    (jsonrpc_create_error (Json.str "oops") (Json.int 0)).error = some (Json.str "oops") ∧
    (jsonrpc_create_error (Json.str "oops") (Json.int 0)).id = some (Json.int 0) ∧
    jsonrpc_msg_is_valid (jsonrpc_create_error (Json.str "oops") (Json.int 0)) =
      some "reply must have \"result\"" := by
  refine ⟨rfl, by decide, rfl, rfl, rfl⟩

/-- Claim C2, counterexample: a run step that promotes an in-progress
connecting stream into a live endpoint (stream_connect succeeds, the
controller decides nothing) leaves seqno unchanged, refuting the claim
that the Connecting to Connected transition strictly increments it. -/
theorem claim_C2_counterexample :
    jsonrpc_session_run ⟨false, true, 0⟩ ⟨0, 0, ReconnectDecision.nothing, 0⟩ =
      ⟨true, false, 0⟩ ∧
    ¬ 0 < (jsonrpc_session_run ⟨false, true, 0⟩
      ⟨0, 0, ReconnectDecision.nothing, 0⟩).seqno := by
  refine ⟨rfl, by decide⟩

/-- Claim C2, amended: the transitions performed through the session
disconnect and connect helpers (Connected to Idle, Connecting to Idle,
Idle to Connecting) strictly increment seqno, but the promotion from
Connecting to Connected performed inside run leaves seqno unchanged. -/
theorem claim_C2_amended :
    (∀ s : JsonrpcSession, s.rpc = true ∨ s.stream = true →
      (jsonrpc_session_disconnect s).seqno = s.seqno + 1) ∧
    (∀ (s : JsonrpcSession) (openResult : Int), s.rpc = false → s.stream = false →
      (jsonrpc_session_connect s openResult).seqno = s.seqno + 1) ∧
    (∀ (s : JsonrpcSession) (env : SessionRunEnv), s.rpc = false → s.stream = true →
      env.connectResult = 0 → env.decision = ReconnectDecision.nothing →
      jsonrpc_session_run s env = ⟨true, false, s.seqno⟩) := by
  refine ⟨?_, ?_, ?_⟩
  · intro s hs
    unfold jsonrpc_session_disconnect
    rcases hs with h | h
    · rw [if_pos h]
    · by_cases hr : s.rpc
      · rw [if_pos hr]
      · rw [if_neg hr, if_pos h]
  · intro s openResult hrpc hstream
    unfold jsonrpc_session_connect jsonrpc_session_disconnect
    rw [if_neg (by simp [hrpc]), if_neg (by simp [hstream])]
    by_cases ho : openResult = 0 <;> simp [ho]
  · intro s env hrpc hstream hconn hdec
    obtain ⟨r, st, q⟩ := s
    obtain ⟨rs, cr, dec, op⟩ := env
    simp only at hrpc hstream hconn hdec
    subst hrpc hstream hconn hdec
    simp [jsonrpc_session_run]

/-- Witness for claim C2, amended: a connected session disconnecting, an
idle session connecting, and a connecting session promoted to connected,
at concrete states. -/
theorem claim_C2_amended_witness :
    (jsonrpc_session_disconnect ⟨true, false, 5⟩).seqno = 6 ∧
    (jsonrpc_session_connect ⟨false, false, 3⟩ 0).seqno = 4 ∧
    jsonrpc_session_run ⟨false, true, 7⟩ ⟨0, 0, ReconnectDecision.nothing, 0⟩ =
      ⟨true, false, 7⟩ :=
  ⟨claim_C2_amended.1 ⟨true, false, 5⟩ (Or.inl rfl),
   claim_C2_amended.2.1 ⟨false, false, 3⟩ 0 rfl rfl,
   claim_C2_amended.2.2 ⟨false, true, 7⟩ ⟨0, 0, ReconnectDecision.nothing, 0⟩
     rfl rfl rfl rfl⟩

/-- Claim C10: when the controller decides connect while the session is
idle and the stream open fails immediately, seqno is incremented exactly
once and the session still holds neither an endpoint nor a stream, so a
seqno change does not imply that possession changed. -/
theorem claim_C10_connect_seqno (s : JsonrpcSession) (env : SessionRunEnv)
    (hrpc : s.rpc = false) (hstream : s.stream = false)
    (hdec : env.decision = ReconnectDecision.connect)
    (hopen : env.openResult ≠ 0) :
    jsonrpc_session_run s env = ⟨false, false, s.seqno + 1⟩ := by
  obtain ⟨r, st, q⟩ := s
  obtain ⟨rs, cr, dec, op⟩ := env
  simp only at hrpc hstream hdec hopen
  subst hrpc hstream hdec
  simp [jsonrpc_session_run, jsonrpc_session_connect, jsonrpc_session_disconnect,
    hopen]

/-- Witness for claim C10: an idle session at seqno 2 whose connect tick
fails with stream_open error 5. -/
theorem claim_C10_connect_seqno_witness :
    jsonrpc_session_run ⟨false, false, 2⟩ ⟨0, 0, ReconnectDecision.connect, 5⟩ =
      ⟨false, false, 3⟩ :=
  claim_C10_connect_seqno ⟨false, false, 2⟩ ⟨0, 0, ReconnectDecision.connect, 5⟩
    rfl rfl rfl (by decide)

/-- Claim C6: once a nonzero status is latched, the first code is sticky
(jsonrpc_error leaves a dead endpoint unchanged), send returns the
latched code without touching the state (the message is destroyed, not
queued), recv returns the latched code with no message for every receive
outcome, and the reported backlog is 0. -/
theorem claim_C6_terminal_death (rpc : Jsonrpc) (e : Int) (length : Nat)
    (sendResults : List StreamSendResult) (outcome : RecvOutcome)
    (he : e ≠ 0) (hdead : rpc.status ≠ 0) :
    jsonrpc_error rpc e = rpc ∧
    jsonrpc_send rpc length sendResults = (rpc, rpc.status) ∧
    jsonrpc_recv rpc outcome = (rpc, none, rpc.status) ∧
    jsonrpc_get_backlog rpc = 0 := by
  refine ⟨?_, ?_, ?_, ?_⟩
  · unfold jsonrpc_error
    rw [if_neg hdead]
  · unfold jsonrpc_send
    rw [if_neg hdead]
  · unfold jsonrpc_recv
    rw [if_neg hdead]
  · unfold jsonrpc_get_backlog
    rw [if_neg hdead]

/-- Witness for claim C6: an endpoint latched with status 5, hit with a
later error 7, a send of 3 bytes and a receive. -/
theorem claim_C6_terminal_death_witness :
    (7 : Int) ≠ 0 ∧ (⟨5, none, [], 0⟩ : Jsonrpc).status ≠ 0 ∧
    (jsonrpc_error ⟨5, none, [], 0⟩ 7 = ⟨5, none, [], 0⟩ ∧
     jsonrpc_send ⟨5, none, [], 0⟩ 3 [] = (⟨5, none, [], 0⟩, 5) ∧
     jsonrpc_recv ⟨5, none, [], 0⟩ RecvOutcome.eagain = (⟨5, none, [], 0⟩, none, 5) ∧
     jsonrpc_get_backlog ⟨5, none, [], 0⟩ = 0) :=
  ⟨by decide, by decide,
   claim_C6_terminal_death ⟨5, none, [], 0⟩ 7 3 [] RecvOutcome.eagain
     (by decide) (by decide)⟩

/-- Claim C7: across every interleaving of sends and runs with arbitrary
per-call transport acceptance (partial writes included), starting from a
fresh endpoint, the backlog counter equals the sum of the remaining byte
counts of the queued send buffers, and while the endpoint is healthy the
reported backlog equals that sum. -/
theorem claim_C7_backlog_accounting (ops : List JsonrpcOp) :
    (jsonrpcExec jsonrpc_open ops).backlog =
      (jsonrpcExec jsonrpc_open ops).output.sum ∧
    ((jsonrpcExec jsonrpc_open ops).status = 0 →
      jsonrpc_get_backlog (jsonrpcExec jsonrpc_open ops) =
        (jsonrpcExec jsonrpc_open ops).output.sum) := by
  have h := jsonrpcExec_invariant ops jsonrpc_open (by simp [jsonrpc_open])
  exact ⟨h, fun hs => by simp [jsonrpc_get_backlog, hs, h]⟩

/-- Witness for claim C7: a send of 5 bytes partially drained by 3, then
a send of 4 bytes opportunistically drained by 2, leaving a healthy
endpoint whose reported backlog matches its queue. -/
theorem claim_C7_backlog_accounting_witness :
    (jsonrpcExec jsonrpc_open [JsonrpcOp.send 5 [StreamSendResult.accepted 3],
      JsonrpcOp.send 4 [], JsonrpcOp.run [StreamSendResult.accepted 2]]).status = 0 ∧
    jsonrpc_get_backlog (jsonrpcExec jsonrpc_open
      [JsonrpcOp.send 5 [StreamSendResult.accepted 3],
       JsonrpcOp.send 4 [], JsonrpcOp.run [StreamSendResult.accepted 2]]) =
      (jsonrpcExec jsonrpc_open [JsonrpcOp.send 5 [StreamSendResult.accepted 3],
        JsonrpcOp.send 4 [], JsonrpcOp.run [StreamSendResult.accepted 2]]).output.sum :=
  ⟨by decide,
   (claim_C7_backlog_accounting [JsonrpcOp.send 5 [StreamSendResult.accepted 3],
     JsonrpcOp.send 4 [], JsonrpcOp.run [StreamSendResult.accepted 2]]).2 (by decide)⟩

theorem jsonrpc_msg_is_valid_shape (m : JsonrpcMsg) (h : jsonrpc_msg_is_valid m = none) :
    m.method.isSome = (jsonrpcMsgPattern m.type).method ∧
    m.params.isSome = (jsonrpcMsgPattern m.type).params ∧
    m.result.isSome = (jsonrpcMsgPattern m.type).result ∧
    m.error.isSome = (jsonrpcMsgPattern m.type).error ∧
    m.id.isSome = (jsonrpcMsgPattern m.type).id ∧
    jsonrpcParamsNotArray m.params = false := by
  simp only [jsonrpc_msg_is_valid] at h
  repeat' split at h
  all_goals simp_all [bne_iff_ne]

/-- Claim C3, counterexample: the valid Reply whose result field holds
the JSON null value round-trips to an error: to_json emits result null,
from_json strips it, infers Request from the id, and validation then
fails, refuting the claim for every valid message. -/
theorem claim_C3_counterexample :
    jsonrpc_msg_is_valid
      ⟨JsonrpcMsgType.reply, none, none, some Json.null, none, some (Json.int 0)⟩ =
      none ∧
    jsonrpc_msg_from_json (jsonrpc_msg_to_json
      ⟨JsonrpcMsgType.reply, none, none, some Json.null, none, some (Json.int 0)⟩) =
      Except.error "request must have \"method\"" :=
  ⟨rfl, rfl⟩

set_option maxHeartbeats 2000000 in
/-- Claim C3, amended: for every message satisfying validate none of
whose result, error or id fields holds the JSON null value,
from_json after to_json succeeds and returns the message unchanged,
field for field.  (A present params field is a JSON array whenever
validate passes, so it can never be null.) -/
theorem claim_C3_roundtrip (m : JsonrpcMsg) (hv : jsonrpc_msg_is_valid m = none)
    (hr : m.result ≠ some Json.null) (he : m.error ≠ some Json.null)
    (hi : m.id ≠ some Json.null) :
    jsonrpc_msg_from_json (jsonrpc_msg_to_json m) = Except.ok m := by
  obtain ⟨ty, mth, prm, res, err, idf⟩ := m
  have shape := jsonrpc_msg_is_valid_shape _ hv
  simp only at shape hr he hi
  cases ty <;> simp only [jsonrpcMsgPattern] at shape
  case request =>
    obtain ⟨s, rfl⟩ := Option.isSome_iff_exists.mp shape.1
    obtain ⟨p, rfl⟩ := Option.isSome_iff_exists.mp shape.2.1
    have hres : res = none := Option.not_isSome_iff_eq_none.mp (by simp [shape.2.2.1])
    have herr : err = none := Option.not_isSome_iff_eq_none.mp (by simp [shape.2.2.2.1])
    obtain ⟨i, rfl⟩ := Option.isSome_iff_exists.mp shape.2.2.2.2.1
    subst hres herr
    have hparr : p.isArray = true := by
      have := shape.2.2.2.2.2
      simpa [jsonrpcParamsNotArray] using this
    cases p <;> simp [Json.isArray] at hparr
    cases i <;> first | rfl | exact absurd rfl hi
  case notify =>
    obtain ⟨s, rfl⟩ := Option.isSome_iff_exists.mp shape.1
    obtain ⟨p, rfl⟩ := Option.isSome_iff_exists.mp shape.2.1
    have hres : res = none := Option.not_isSome_iff_eq_none.mp (by simp [shape.2.2.1])
    have herr : err = none := Option.not_isSome_iff_eq_none.mp (by simp [shape.2.2.2.1])
    have hid : idf = none := Option.not_isSome_iff_eq_none.mp (by simp [shape.2.2.2.2.1])
    subst hres herr hid
    have hparr : p.isArray = true := by
      have := shape.2.2.2.2.2
      simpa [jsonrpcParamsNotArray] using this
    cases p <;> simp [Json.isArray] at hparr
    rfl
  case reply =>
    have hmth : mth = none := Option.not_isSome_iff_eq_none.mp (by simp [shape.1])
    have hprm : prm = none := Option.not_isSome_iff_eq_none.mp (by simp [shape.2.1])
    obtain ⟨r, rfl⟩ := Option.isSome_iff_exists.mp shape.2.2.1
    have herr : err = none := Option.not_isSome_iff_eq_none.mp (by simp [shape.2.2.2.1])
    obtain ⟨i, rfl⟩ := Option.isSome_iff_exists.mp shape.2.2.2.2.1
    subst hmth hprm herr
    cases r <;> first
      | exact absurd rfl hr
      | cases i <;> first | rfl | exact absurd rfl hi
  case error =>
    have hmth : mth = none := Option.not_isSome_iff_eq_none.mp (by simp [shape.1])
    have hprm : prm = none := Option.not_isSome_iff_eq_none.mp (by simp [shape.2.1])
    have hres : res = none := Option.not_isSome_iff_eq_none.mp (by simp [shape.2.2.1])
    obtain ⟨e, rfl⟩ := Option.isSome_iff_exists.mp shape.2.2.2.1
    obtain ⟨i, rfl⟩ := Option.isSome_iff_exists.mp shape.2.2.2.2.1
    subst hmth hprm hres
    cases e <;> first
      | exact absurd rfl he
      | cases i <;> first | rfl | exact absurd rfl hi

/-- Witness for claim C3, amended: the request with method sum, params
the array of 1 and 2, and id 0 round-trips through to_json and
from_json. -/
theorem claim_C3_roundtrip_witness :
    jsonrpc_msg_is_valid ⟨JsonrpcMsgType.request, some "sum",
      some (Json.arr [Json.int 1, Json.int 2]), none, none, some (Json.int 0)⟩ = none ∧
    jsonrpc_msg_from_json (jsonrpc_msg_to_json ⟨JsonrpcMsgType.request, some "sum",
      some (Json.arr [Json.int 1, Json.int 2]), none, none, some (Json.int 0)⟩) =
      Except.ok ⟨JsonrpcMsgType.request, some "sum",
        some (Json.arr [Json.int 1, Json.int 2]), none, none, some (Json.int 0)⟩ :=
  ⟨rfl,
   claim_C3_roundtrip ⟨JsonrpcMsgType.request, some "sum",
     some (Json.arr [Json.int 1, Json.int 2]), none, none, some (Json.int 0)⟩
     rfl (by decide) (by decide) (by decide)⟩

/-- Claim C4, counterexample: a method member whose value is JSON null is
not treated as absent: the object with method null, result 5 and id 0 is
rejected with the method type error, while the same object without the
method member parses as a Reply. -/
theorem claim_C4_counterexample :
    jsonrpc_msg_from_json (Json.obj
      [("method", Json.null), ("result", Json.int 5), ("id", Json.int 0)]) =
      Except.error "method is not a JSON string" ∧
    jsonrpc_msg_from_json (Json.obj [("result", Json.int 5), ("id", Json.int 0)]) =
      Except.ok ⟨JsonrpcMsgType.reply, none, none, some (Json.int 5), none,
        some (Json.int 0)⟩ :=
  ⟨rfl, rfl⟩

/-- Claim C4, amended: a params, result, error or id member whose value
is JSON null is treated exactly as if the member were absent (given that
the object holds no other member of that name), but a method member
whose value is JSON null is instead rejected with the error that method
is not a JSON string. -/
theorem claim_C4_null_members :
    (∀ (k : String) (pre post : List (String × Json)),
      k ∈ (["params", "result", "error", "id"] : List String) →
      k ∉ shashKeys pre → k ∉ shashKeys post →
      jsonrpc_msg_from_json (Json.obj (pre ++ (k, Json.null) :: post)) =
        jsonrpc_msg_from_json (Json.obj (pre ++ post))) ∧
    (∀ pre post : List (String × Json), "method" ∉ shashKeys pre →
      jsonrpc_msg_from_json (Json.obj (pre ++ ("method", Json.null) :: post)) =
        Except.error "method is not a JSON string") := by
  constructor
  · intro k pre post hk hpre hpost
    have hmk : "method" ≠ k := by
      intro hcontr
      rw [← hcontr] at hk
      exact absurd hk (by decide)
    obtain ⟨pre2, post2, hsp, hsq, heq1, heq2⟩ :=
      shashFindAndDelete_middle "method" k Json.null pre post hmk
    have hm1 : (shashFindAndDelete "method" (pre ++ (k, Json.null) :: post)).1
        = (shashFindAndDelete "method" (pre ++ post)).1 := by rw [heq1]
    have hm2 : (shashFindAndDelete "method" (pre ++ (k, Json.null) :: post)).2
        = pre2 ++ (k, Json.null) :: post2 := by rw [heq1]
    have hbody : ∀ mth, fromJsonBody mth (pre2 ++ (k, Json.null) :: post2)
        = fromJsonBody mth (pre2 ++ post2) := by
      intro mth
      have hpre2 : k ∉ shashKeys pre2 := not_mem_keys_of_sublist _ _ _ hsp hpre
      have hpost2 : k ∉ shashKeys post2 := not_mem_keys_of_sublist _ _ _ hsq hpost
      simp only [List.mem_cons, List.not_mem_nil, or_false] at hk
      rcases hk with rfl | rfl | rfl | rfl
      · exact fromJsonBody_null_params mth pre2 post2 hpre2 hpost2
      · exact fromJsonBody_null_result mth pre2 post2 hpre2 hpost2
      · exact fromJsonBody_null_error mth pre2 post2 hpre2 hpost2
      · exact fromJsonBody_null_id mth pre2 post2 hpre2 hpost2
    simp only [jsonrpc_msg_from_json]
    rw [hm1, hm2, heq2]
    cases hF : (shashFindAndDelete "method" (pre ++ post)).1 with
    | none => exact hbody none
    | some j =>
        cases j with
        | str s => exact hbody (some s)
        | null => rfl
        | bool b => rfl
        | int n => rfl
        | arr xs => rfl
        | obj ms => rfl
  · exact fromJson_null_method

/-- Witness for claim C4, amended: a null params member between method
and id is equivalent to omitting it, and an object starting with a null
method member is rejected. -/
theorem claim_C4_null_members_witness :
    ("params" ∈ (["params", "result", "error", "id"] : List String)) ∧
    jsonrpc_msg_from_json (Json.obj
      [("method", Json.str "m"), ("params", Json.null), ("id", Json.int 1)]) =
      jsonrpc_msg_from_json (Json.obj [("method", Json.str "m"), ("id", Json.int 1)]) ∧
    jsonrpc_msg_from_json (Json.obj [("method", Json.null), ("result", Json.int 5)]) =
      Except.error "method is not a JSON string" :=
  ⟨by decide,
   claim_C4_null_members.1 "params" [("method", Json.str "m")] [("id", Json.int 1)]
     (by decide) (by decide) (by decide),
   claim_C4_null_members.2 [] [("result", Json.int 5)] (by decide)⟩

theorem null_from_json_null_of_array (p : Json) (hp : p.isArray = true) :
    null_from_json_null (some p) = some p := by
  cases p <;> first | rfl | simp [Json.isArray] at hp

/-- Claim C5, counterexample: an object whose set of non-null members is
exactly method, params and id (method a string, params an array) is
nonetheless rejected when it also contains an unknown member with a null
value; and an object with a non-string method and an unknown member is
rejected with the method type error rather than one naming the unknown
member. -/
theorem claim_C5_counterexample :
    jsonrpc_msg_from_json (Json.obj [("method", Json.str "m"),
      ("params", Json.arr []), ("id", Json.int 1), ("zzz", Json.null)]) =
      Except.error "message has unexpected member \"zzz\"" ∧
    jsonrpc_msg_from_json (Json.obj [("method", Json.str "m"),
      ("params", Json.arr []), ("id", Json.int 1), ("zzz", Json.null)]) ≠
      Except.ok ⟨JsonrpcMsgType.request, some "m", some (Json.arr []), none, none,
        some (Json.int 1)⟩ ∧
    jsonrpc_msg_from_json (Json.obj [("method", Json.int 3), ("zzz", Json.int 1)]) =
      Except.error "method is not a JSON string" := by
  refine ⟨rfl, ?_, rfl⟩
  intro h
  rw [show jsonrpc_msg_from_json (Json.obj [("method", Json.str "m"),
      ("params", Json.arr []), ("id", Json.int 1), ("zzz", Json.null)]) =
      Except.error "message has unexpected member \"zzz\"" from rfl] at h
  exact Except.noConfusion h

/-- Claim C5, amended: over objects with distinct member names, all of
them among the five known ones, the stripped non-null member patterns
method, params, id (method a string, params an array) yield a Request;
method, params yield a Notify; result, id yield a Reply; error, id yield
an Error.  An object containing a member outside the five known names is
rejected, and when its method member (if any) is a JSON string, the
rejection error names such an unknown member. -/
theorem claim_C5_variant_inference :
    (∀ (o : List (String × Json)) (s : String) (p i : Json),
      (shashKeys o).Nodup → (∀ k ∈ shashKeys o, k ∈ jsonrpcMemberNames) →
      shashFind "method" o = some (Json.str s) →
      shashFind "params" o = some p → p.isArray = true →
      null_from_json_null (shashFind "result" o) = none →
      null_from_json_null (shashFind "error" o) = none →
      null_from_json_null (shashFind "id" o) = some i →
      jsonrpc_msg_from_json (Json.obj o) =
        Except.ok ⟨JsonrpcMsgType.request, some s, some p, none, none, some i⟩) ∧
    (∀ (o : List (String × Json)) (s : String) (p : Json),
      (shashKeys o).Nodup → (∀ k ∈ shashKeys o, k ∈ jsonrpcMemberNames) →
      shashFind "method" o = some (Json.str s) →
      shashFind "params" o = some p → p.isArray = true →
      null_from_json_null (shashFind "result" o) = none →
      null_from_json_null (shashFind "error" o) = none →
      null_from_json_null (shashFind "id" o) = none →
      jsonrpc_msg_from_json (Json.obj o) =
        Except.ok ⟨JsonrpcMsgType.notify, some s, some p, none, none, none⟩) ∧
    (∀ (o : List (String × Json)) (r i : Json),
      (shashKeys o).Nodup → (∀ k ∈ shashKeys o, k ∈ jsonrpcMemberNames) →
      shashFind "method" o = none →
      null_from_json_null (shashFind "params" o) = none →
      null_from_json_null (shashFind "result" o) = some r →
      null_from_json_null (shashFind "error" o) = none →
      null_from_json_null (shashFind "id" o) = some i →
      jsonrpc_msg_from_json (Json.obj o) =
        Except.ok ⟨JsonrpcMsgType.reply, none, none, some r, none, some i⟩) ∧
    (∀ (o : List (String × Json)) (e i : Json),
      (shashKeys o).Nodup → (∀ k ∈ shashKeys o, k ∈ jsonrpcMemberNames) →
      shashFind "method" o = none →
      null_from_json_null (shashFind "params" o) = none →
      null_from_json_null (shashFind "result" o) = none →
      null_from_json_null (shashFind "error" o) = some e →
      null_from_json_null (shashFind "id" o) = some i →
      jsonrpc_msg_from_json (Json.obj o) =
        Except.ok ⟨JsonrpcMsgType.error, none, none, none, some e, some i⟩) ∧
    (∀ (o : List (String × Json)) (k : String) (v : Json),
      (shashKeys o).Nodup → (k, v) ∈ o → k ∉ jsonrpcMemberNames →
      (∀ j, shashFind "method" o = some j → ∃ s, j = Json.str s) →
      ∃ k2, k2 ∉ jsonrpcMemberNames ∧ k2 ∈ shashKeys o ∧
        jsonrpc_msg_from_json (Json.obj o) =
          Except.error ("message has unexpected member \"" ++ k2 ++ "\"")) := by
  refine ⟨?_, ?_, ?_, ?_, ?_⟩
  · intro o s p i hnd hsub hm hp hparr hres herr hid
    rw [from_json_obj_method_str o s hm, fromJsonBody_char o (some s) hnd hsub,
      hres, herr, hid, hp, null_from_json_null_of_array p hparr]
    exact fromJsonParts_request s p i hparr
  · intro o s p hnd hsub hm hp hparr hres herr hid
    rw [from_json_obj_method_str o s hm, fromJsonBody_char o (some s) hnd hsub,
      hres, herr, hid, hp, null_from_json_null_of_array p hparr]
    exact fromJsonParts_notify s p hparr
  · intro o r i hnd hsub hm hprm hres herr hid
    rw [from_json_obj_method_none o hm, fromJsonBody_char o none hnd hsub,
      hprm, hres, herr, hid]
    exact fromJsonParts_reply r i
  · intro o e i hnd hsub hm hprm hres herr hid
    rw [from_json_obj_method_none o hm, fromJsonBody_char o none hnd hsub,
      hprm, hres, herr, hid]
    exact fromJsonParts_error_variant e i
  · intro o k v hnd hmem hk hmethod
    cases hF : shashFind "method" o with
    | none =>
        obtain ⟨k2, h1, h2, h3⟩ := fromJsonBody_unexpected_member o none hnd k v hmem hk
        refine ⟨k2, h1, h2, ?_⟩
        rw [from_json_obj_method_none o hF]
        exact h3
    | some j =>
        obtain ⟨s, rfl⟩ := hmethod j hF
        obtain ⟨k2, h1, h2, h3⟩ :=
          fromJsonBody_unexpected_member o (some s) hnd k v hmem hk
        refine ⟨k2, h1, h2, ?_⟩
        rw [from_json_obj_method_str o s hF]
        exact h3

/-- Witness for claim C5, amended: concrete objects for each variant
(with a null result member exercising the stripping in the Request case)
and a rejected object carrying an unknown member. -/
theorem claim_C5_variant_inference_witness :
    jsonrpc_msg_from_json (Json.obj [("method", Json.str "sum"),
      ("params", Json.arr [Json.int 1]), ("id", Json.int 3), ("result", Json.null)]) =
      Except.ok ⟨JsonrpcMsgType.request, some "sum", some (Json.arr [Json.int 1]),
        none, none, some (Json.int 3)⟩ ∧
    jsonrpc_msg_from_json (Json.obj [("method", Json.str "x"),
      ("params", Json.arr [])]) =
      Except.ok ⟨JsonrpcMsgType.notify, some "x", some (Json.arr []), none, none,
        none⟩ ∧
    jsonrpc_msg_from_json (Json.obj [("result", Json.int 5), ("error", Json.null),
      ("id", Json.int 0)]) =
      Except.ok ⟨JsonrpcMsgType.reply, none, none, some (Json.int 5), none,
        some (Json.int 0)⟩ ∧
    jsonrpc_msg_from_json (Json.obj [("error", Json.str "bad"), ("id", Json.int 9)]) =
      Except.ok ⟨JsonrpcMsgType.error, none, none, none, some (Json.str "bad"),
        some (Json.int 9)⟩ ∧
    (∃ k2, k2 ∉ jsonrpcMemberNames ∧
      k2 ∈ shashKeys [("jsonrpc", Json.str "2.0"), ("method", Json.str "m"),
        ("params", Json.arr []), ("id", Json.int 1)] ∧
      jsonrpc_msg_from_json (Json.obj [("jsonrpc", Json.str "2.0"),
        ("method", Json.str "m"), ("params", Json.arr []), ("id", Json.int 1)]) =
        Except.error ("message has unexpected member \"" ++ k2 ++ "\"")) :=
  ⟨claim_C5_variant_inference.1 [("method", Json.str "sum"),
      ("params", Json.arr [Json.int 1]), ("id", Json.int 3), ("result", Json.null)]
      "sum" (Json.arr [Json.int 1]) (Json.int 3)
      (by decide) (by decide) rfl rfl rfl rfl rfl rfl,
   claim_C5_variant_inference.2.1 [("method", Json.str "x"), ("params", Json.arr [])]
      "x" (Json.arr []) (by decide) (by decide) rfl rfl rfl rfl rfl rfl,
   claim_C5_variant_inference.2.2.1 [("result", Json.int 5), ("error", Json.null),
      ("id", Json.int 0)] (Json.int 5) (Json.int 0)
      (by decide) (by decide) rfl rfl rfl rfl rfl,
   claim_C5_variant_inference.2.2.2.1 [("error", Json.str "bad"), ("id", Json.int 9)]
      (Json.str "bad") (Json.int 9) (by decide) (by decide) rfl rfl rfl rfl rfl,
   claim_C5_variant_inference.2.2.2.2 [("jsonrpc", Json.str "2.0"),
      ("method", Json.str "m"), ("params", Json.arr []), ("id", Json.int 1)]
      "jsonrpc" (Json.str "2.0") (by decide) (by decide) (by decide)
      (by intro j hj; exact ⟨"m", by cases hj; rfl⟩)⟩

theorem jsonrpcTransactLoop_skip (id : Json) (pre : List RecvBlockResult)
    (hpre1 : ∀ m, RecvBlockResult.received m ∈ pre →
      jsonrpcTransactMatches id m = false)
    (hpre2 : ∀ e, RecvBlockResult.failed e ∉ pre) :
    ∀ tail, jsonrpcTransactLoop id (pre ++ tail) = jsonrpcTransactLoop id tail := by
  induction pre with
  | nil => intro tail; rfl
  | cons x rest ih =>
      intro tail
      cases x with
      | failed e => exact absurd (List.mem_cons_self _ _) (hpre2 e)
      | received m =>
          simp only [List.cons_append, jsonrpcTransactLoop]
          rw [if_neg (by simp [hpre1 m (List.mem_cons_self _ _)])]
          exact ih (fun m2 hm2 => hpre1 m2 (List.mem_cons_of_mem _ hm2))
            (fun e2 he2 => hpre2 e2 (List.mem_cons_of_mem _ he2)) tail

/-- Claim C8: over a sequence of completed receive outcomes none of which
before the decisive one is an error or a reply matching the request id,
the transaction returns the first matching reply with status 0 (the
skipped messages are destroyed by the loop), returns the first error
with no reply, and a send failure is returned at once with no reply. -/
theorem claim_C8_transact_matching (id : Json) (pre rest : List RecvBlockResult)
    (r : JsonrpcMsg) (e sendResult : Int)
    (hpre1 : ∀ m, RecvBlockResult.received m ∈ pre →
      jsonrpcTransactMatches id m = false)
    (hpre2 : ∀ e2, RecvBlockResult.failed e2 ∉ pre) :
    (jsonrpcTransactMatches id r = true →
      jsonrpc_transact_block 0 id (pre ++ RecvBlockResult.received r :: rest) =
        some (0, some r)) ∧
    (e ≠ 0 →
      jsonrpc_transact_block 0 id (pre ++ RecvBlockResult.failed e :: rest) =
        some (e, none)) ∧
    (sendResult ≠ 0 →
      jsonrpc_transact_block sendResult id (pre ++ rest) =
        some (sendResult, none)) := by
  refine ⟨?_, ?_, ?_⟩
  · intro hmatch
    unfold jsonrpc_transact_block
    rw [if_pos rfl, jsonrpcTransactLoop_skip id pre hpre1 hpre2]
    simp only [jsonrpcTransactLoop]
    rw [if_pos hmatch]
  · intro hne
    unfold jsonrpc_transact_block
    rw [if_pos rfl, jsonrpcTransactLoop_skip id pre hpre1 hpre2]
    rfl
  · intro hne
    unfold jsonrpc_transact_block
    rw [if_neg hne]

/-- Witness for claim C8: the transaction with request id 7 skips a
notify and a reply with id 6 and returns the reply with id 7 carrying
result ok. -/
theorem claim_C8_transact_matching_witness :
    jsonrpcTransactMatches (Json.int 7) ⟨JsonrpcMsgType.reply, none, none,
      some (Json.str "ok"), none, some (Json.int 7)⟩ = true ∧
    jsonrpc_transact_block 0 (Json.int 7)
      ([RecvBlockResult.received ⟨JsonrpcMsgType.notify, some "x",
          some (Json.arr []), none, none, none⟩,
        RecvBlockResult.received ⟨JsonrpcMsgType.reply, none, none,
          some (Json.int 0), none, some (Json.int 6)⟩] ++
        RecvBlockResult.received ⟨JsonrpcMsgType.reply, none, none,
          some (Json.str "ok"), none, some (Json.int 7)⟩ :: []) =
      some (0, some ⟨JsonrpcMsgType.reply, none, none, some (Json.str "ok"), none,
        some (Json.int 7)⟩) :=
  ⟨by decide,
   (claim_C8_transact_matching (Json.int 7)
      [RecvBlockResult.received ⟨JsonrpcMsgType.notify, some "x",
         some (Json.arr []), none, none, none⟩,
       RecvBlockResult.received ⟨JsonrpcMsgType.reply, none, none,
         some (Json.int 0), none, some (Json.int 6)⟩] []
      ⟨JsonrpcMsgType.reply, none, none, some (Json.str "ok"), none,
        some (Json.int 7)⟩ 1 1
      (by
        intro m hm
        simp only [List.mem_cons, List.not_mem_nil, or_false] at hm
        rcases hm with h | h <;> (injection h with h2; subst h2; decide))
      (by
        intro e2 he2
        simp only [List.mem_cons, List.not_mem_nil, or_false] at he2
        rcases he2 with h | h <;> cases h)).1 (by decide)⟩

/-- Claim C9: on the session receive path an inbound echo request is
consumed and answered with a reply carrying the same params and id; an
inbound reply whose id is the JSON string echo is consumed silently;
every other message is passed through unchanged; and a probe tick with a
live endpoint sends a request with method echo, empty-array params and
the JSON string echo as id. -/
theorem claim_C9_echo_keepalive :
    (∀ (m : JsonrpcMsg) (i : Json), m.type = JsonrpcMsgType.request →
      m.method = some "echo" → m.id = some i →
      jsonrpc_session_recv_handle m =
        (none, some ⟨JsonrpcMsgType.reply, none, none, m.params, none, some i⟩)) ∧
    (∀ m : JsonrpcMsg, m.type = JsonrpcMsgType.reply →
      m.id = some (Json.str "echo") →
      jsonrpc_session_recv_handle m = (none, none)) ∧
    (∀ m : JsonrpcMsg,
      ¬(m.type = JsonrpcMsgType.request ∧ m.method = some "echo") →
      ¬(m.type = JsonrpcMsgType.reply ∧ m.id = some (Json.str "echo")) →
      jsonrpc_session_recv_handle m = (some m, none)) ∧
    (∀ counter : Nat, jsonrpc_session_run_probe true counter =
      (some ⟨JsonrpcMsgType.request, some "echo", some (Json.arr []), none, none,
        some (Json.str "echo")⟩, counter + 1)) := by
  refine ⟨?_, ?_, ?_, ?_⟩
  · intro m i h1 h2 hid
    unfold jsonrpc_session_recv_handle
    rw [if_pos (by simp [h1, h2])]
    rw [hid]
    simp [jsonrpc_create_reply, jsonrpc_create]
  · intro m h1 h2
    unfold jsonrpc_session_recv_handle
    rw [if_neg (by simp [h1]), if_pos (by simp [h1, h2])]
  · intro m h1 h2
    unfold jsonrpc_session_recv_handle
    rw [if_neg (by simp only [Bool.and_eq_true, decide_eq_true_eq]; exact h1),
      if_neg ?_]
    intro hcond
    rw [Bool.and_eq_true] at hcond
    obtain ⟨ha, hb⟩ := hcond
    apply h2
    refine ⟨of_decide_eq_true ha, ?_⟩
    cases hm : m.id with
    | none => rw [hm] at hb; cases hb
    | some j =>
        rw [hm] at hb
        cases j with
        | str s =>
            have hs : s = "echo" := of_decide_eq_true hb
            rw [hs]
        | null => cases hb
        | bool b => cases hb
        | int n => cases hb
        | arr xs => cases hb
        | obj ms => cases hb
  · intro counter
    rfl

/-- Witness for claim C9: the echo request with id 42 is answered with a
reply carrying the same params and id, the echo reply is suppressed, a
notify passes through, and the probe at counter 0 builds the echo
request. -/
theorem claim_C9_echo_keepalive_witness :
    jsonrpc_session_recv_handle ⟨JsonrpcMsgType.request, some "echo",
      some (Json.arr []), none, none, some (Json.int 42)⟩ =
      (none, some ⟨JsonrpcMsgType.reply, none, none, some (Json.arr []), none,
        some (Json.int 42)⟩) ∧
    jsonrpc_session_recv_handle ⟨JsonrpcMsgType.reply, none, none,
      some (Json.arr []), none, some (Json.str "echo")⟩ = (none, none) ∧
    jsonrpc_session_recv_handle ⟨JsonrpcMsgType.notify, some "x",
      some (Json.arr []), none, none, none⟩ =
      (some ⟨JsonrpcMsgType.notify, some "x", some (Json.arr []), none, none,
        none⟩, none) ∧
    jsonrpc_session_run_probe true 0 =
      (some ⟨JsonrpcMsgType.request, some "echo", some (Json.arr []), none, none,
        some (Json.str "echo")⟩, 1) :=
  ⟨claim_C9_echo_keepalive.1 ⟨JsonrpcMsgType.request, some "echo",
      some (Json.arr []), none, none, some (Json.int 42)⟩ (Json.int 42)
      rfl rfl rfl,
   claim_C9_echo_keepalive.2.1 ⟨JsonrpcMsgType.reply, none, none,
      some (Json.arr []), none, some (Json.str "echo")⟩ rfl rfl,
   claim_C9_echo_keepalive.2.2.1 ⟨JsonrpcMsgType.notify, some "x",
      some (Json.arr []), none, none, none⟩ (by decide) (by decide),
   claim_C9_echo_keepalive.2.2.2 0⟩
